import Mathlib

/-!
# Verification of the duplex realtime audio session manager

A shallow embedding of the conversational-session logic of `src/App.tsx`
(the `ConversationalView` component) together with proofs of the spec's
testable properties.  Pure numeric computations are embedded over `ℚ`
(clock readings, durations, samples) and `ℤ` (integer PCM values);
reference-cell state is embedded as an explicit record `ConvState`, and the
event-driven callbacks (`cleanup`, `handleToggleConversation`,
`onopen`/`onmessage`/`onerror`/`onclose`, `onaudioprocess`) become a step
function on that record that additionally emits the externally visible
resource actions (track stop, context close, source stop, transport open,
frame send) as a trace.
-/

namespace AudioSession

/-! ## AudioFrameCodec: the capture-side sample conversion

`onaudioprocess` in `src/App.tsx` stores `inputData[i] * 32768` into an
`Int16Array`.  The JavaScript `ToInt16` conversion truncates the number
toward zero and then reduces it modulo 2^16 into the signed 16-bit range
(wrap-around, not clamping).  Samples are embedded as rationals; this is
exact for the computation in question because multiplying a binary
floating-point sample by 32768 = 2^15 is exact. -/

/-- Truncation toward zero of a rational, as JavaScript `ToIntegerOrInfinity`
performs on a finite number. -/
def truncQ (q : ℚ) : ℤ :=
  if 0 ≤ q then ⌊q⌋ else ⌈q⌉

/-- JavaScript `ToInt16`: truncate toward zero, reduce modulo 2^16, and
reinterpret in two-complement signed range `[-32768, 32767]`. -/
def toInt16 (q : ℚ) : ℤ :=
  let m := truncQ q % 65536
  if 32768 ≤ m then m - 65536 else m

/-- The conversion applied to one captured sample by `onaudioprocess`:
`int16[i] = inputData[i] * 32768`. -/
def encodeSample (s : ℚ) : ℤ :=
  toInt16 (s * 32768)

/-- The conversion applied to a whole capture buffer. -/
def encodeSamples (xs : List ℚ) : List ℤ :=
  xs.map encodeSample

/-- Little-endian byte serialization of one signed 16-bit value, as
`new Uint8Array(int16.buffer)` reinterprets the sample memory on a
little-endian host: low byte first. -/
def int16ToBytesLE (v : ℤ) : List ℕ :=
  let u := (v % 65536).toNat
  [u % 256, u / 256]

/-- The byte sequence produced from a capture buffer before the text-safe
transport encoding is applied. -/
def encodePCM (xs : List ℚ) : List ℕ :=
  (encodeSamples xs).flatMap int16ToBytesLE

/-- The conversion the spec claims for one sample: `round(sample * 32768)`
with clamping applied at the boundary so that the overflow value 32768 is
never produced.  Written from the spec's words, for comparison with
`encodeSample`, which is written from the source. -/
def specEncodeSample (s : ℚ) : ℤ :=
  max (-32768) (min (round (s * 32768)) 32767)

/-! ## TranscriptAggregator

`onmessage` maintains the transcript list: a fragment merges into the last
entry when that entry has the same speaker and is not final (the entry at
index `length - 1` is replaced in place), otherwise a new entry is pushed. -/

inductive Speaker where
  | user
  | model
deriving DecidableEq, Repr

structure TranscriptEntry where
  speaker : Speaker
  text : String
  isFinal : Bool
deriving DecidableEq, Repr

/-- The transcript update performed by `onmessage` for one fragment
(`setTranscripts(prev => ...)` in `src/App.tsx`, identical for the
`user` and `model` branches up to the speaker constant). -/
def appendTranscript (prev : List TranscriptEntry) (sp : Speaker)
    (text : String) (isFinal : Bool) : List TranscriptEntry :=
  match prev.getLast? with
  | some last =>
      if last.speaker = sp ∧ last.isFinal = false then
        prev.set (prev.length - 1) ⟨last.speaker, last.text ++ text, isFinal⟩
      else
        prev ++ [⟨sp, text, isFinal⟩]
  | none => prev ++ [⟨sp, text, isFinal⟩]

/-! ## PlaybackScheduler: start-time computation

`onmessage` schedules each decoded chunk with
`nextStartTimeRef.current = Math.max(nextStartTimeRef.current, audioContext.currentTime)`
followed by `source.start(nextStartTimeRef.current)` and
`nextStartTimeRef.current += audioBuffer.duration`. -/

/-- The start time chosen for a chunk: the timeline cursor clamped to the
current output-clock reading. -/
def enqueueStart (cursor now : ℚ) : ℚ :=
  max cursor now

/-- Start times computed for a sequence of chunks, each given as a pair
`(now, duration)` of the output-clock reading at its enqueue and the decoded
duration.  Returns the `(start, duration)` pairs in order. -/
def scheduleStarts (cursor : ℚ) : List (ℚ × ℚ) → List (ℚ × ℚ)
  | [] => []
  | (now, dur) :: rest =>
      let start := enqueueStart cursor now
      (start, dur) :: scheduleStarts (start + dur) rest

/-! ## Inbound decode

`onmessage` decodes an inbound chunk via `decodeAudioData(decode(base64Audio),
audioContext, 24000, 1)`.  Both helpers live in `utils/audioUtils`, which is
not part of the sources; they are modelled from the spec.  The inbound payload
is embedded directly as the byte sequence that `decode` would produce, so a
malformed payload is one whose byte length is not a multiple of the 16-bit
sample width. -/

inductive DecodeError where
  | badLength
deriving DecidableEq, Repr

/-- A decoded playback buffer; only its duration (seconds) matters for
scheduling. -/
structure AudioBuffer where
  duration : ℚ
deriving DecidableEq, Repr

/-- Modelled from the spec: `decode`/`decodeAudioData` of `utils/audioUtils`
(absent from the sources).  Per §4.1, decode fails with `DecodeError` if the
byte length is not a multiple of the sample width (2 bytes); otherwise it
yields a normalized buffer whose duration is `sampleCount / sampleRate`
seconds. -/
def decodeAudioData (bytes : List ℕ) (sampleRate : ℕ) :
    Except DecodeError AudioBuffer :=
  if bytes.length % 2 = 0 then
    .ok ⟨((bytes.length / 2 : ℕ) : ℚ) / (sampleRate : ℚ)⟩
  else
    .error .badLength

/-! ## Session state

The reference cells and React state of `ConversationalView`, as one record.
Opaque host objects (media stream tracks, audio contexts, script processor,
playback sources, the live session) are embedded as numeric handles drawn
from a freshness counter. -/

structure ConvState where
  isConnecting : Bool
  isActive : Bool
  statusMessage : String
  transcripts : List TranscriptEntry
  error : Option String
  sessionHandle : Option ℕ
  inputAudioContext : Option ℕ
  outputAudioContext : Option ℕ
  scriptProcessor : Option ℕ
  mediaStream : Option (List ℕ)
  audioSources : List ℕ
  nextStartTime : ℚ
  nextHandle : ℕ
deriving DecidableEq, Repr

/-- The state before any interaction. -/
def initialState : ConvState where
  isConnecting := false
  isActive := false
  statusMessage := "Press the microphone to start"
  transcripts := []
  error := none
  sessionHandle := none
  inputAudioContext := none
  outputAudioContext := none
  scriptProcessor := none
  mediaStream := none
  audioSources := []
  nextStartTime := 0
  nextHandle := 0

/-- Externally visible resource effects emitted by the session logic. -/
inductive Action where
  | stopTrack (t : ℕ)
  | disconnectProcessor (p : ℕ)
  | closeInputContext (c : ℕ)
  | closeOutputContext (c : ℕ)
  | stopSource (s : ℕ)
  | closeSession (h : ℕ)
  | openTransport (h : ℕ)
  | sendFrame (bytes : List ℕ)
deriving DecidableEq, Repr

/-- One inbound transport message, as demuxed by `onmessage`: optional
transcription fragments for either direction, an optional audio payload
(already as bytes; the empty payload stands for the falsy empty string,
which the source's truthiness test skips), and the interruption flag. -/
structure ServerMessage where
  inputTranscription : Option (String × Bool)
  outputTranscription : Option (String × Bool)
  audioData : Option (List ℕ)
  interrupted : Bool
deriving DecidableEq, Repr

/-- The `cleanup` callback of `src/App.tsx`: clears both lifecycle flags,
stops and nulls the media stream tracks, disconnects and nulls the script
processor, closes and nulls both audio contexts, stops and clears the
in-flight playback sources, zeroes the timeline cursor, and closes and nulls
the session.  Returns the new state together with the emitted resource
actions, in source order. -/
def cleanup (st : ConvState) : ConvState × List Action :=
  let acts :=
    ((st.mediaStream.getD []).map Action.stopTrack)
    ++ (match st.scriptProcessor with
        | some p => [Action.disconnectProcessor p]
        | none => [])
    ++ (match st.inputAudioContext with
        | some c => [Action.closeInputContext c]
        | none => [])
    ++ (match st.outputAudioContext with
        | some c => [Action.closeOutputContext c]
        | none => [])
    ++ (st.audioSources.map Action.stopSource)
    ++ (match st.sessionHandle with
        | some h => [Action.closeSession h]
        | none => [])
  ({ st with
      isConnecting := false
      isActive := false
      mediaStream := none
      scriptProcessor := none
      inputAudioContext := none
      outputAudioContext := none
      audioSources := []
      nextStartTime := 0
      sessionHandle := none }, acts)

/-- The trailing `interrupted` check of `onmessage`: stop every in-flight
source, clear the set, and reset the timeline cursor to zero. -/
def applyInterrupted (st : ConvState) (msg : ServerMessage) :
    ConvState × List Action :=
  if msg.interrupted then
    ({ st with audioSources := [], nextStartTime := 0 },
     st.audioSources.map Action.stopSource)
  else
    (st, [])

/-- The `onmessage` callback, given the output-clock reading `now` at which
the audio block executes.  Transcription fragments are folded into the
transcript; an audio payload bumps the cursor to `max(cursor, now)`, decodes,
and on success schedules a fresh source at the cursor and advances the cursor
by the decoded duration.  A decode failure aborts the (async) handler, so the
`interrupted` check is not reached on that path. -/
def onmessage (st : ConvState) (msg : ServerMessage) (now : ℚ) :
    ConvState × List Action :=
  let st1 :=
    match msg.inputTranscription with
    | some (t, f) =>
        { st with transcripts := appendTranscript st.transcripts .user t f }
    | none => st
  let st2 :=
    match msg.outputTranscription with
    | some (t, f) =>
        { st1 with transcripts := appendTranscript st1.transcripts .model t f }
    | none => st1
  match msg.audioData with
  | some payload =>
      if payload ≠ [] ∧ st2.outputAudioContext.isSome then
        let st3 := { st2 with
          statusMessage := "AI is speaking..."
          nextStartTime := enqueueStart st2.nextStartTime now }
        match decodeAudioData payload 24000 with
        | .error _ => (st3, [])
        | .ok buf =>
            let st4 := { st3 with
              nextStartTime := st3.nextStartTime + buf.duration
              audioSources := st3.audioSources ++ [st3.nextHandle]
              nextHandle := st3.nextHandle + 1 }
            applyInterrupted st4 msg
      else
        applyInterrupted st2 msg
  | none => applyInterrupted st2 msg

/-- Events driving the session logic.  `press` carries the outcome of
`getUserMedia`: `some tracks` on success, `none` when microphone acquisition
fails.  `openAck`, `message`, `errorEvt` and `closeEvt` are the live-session
callbacks; `captureFrame` is one `onaudioprocess` firing with the given
capture samples. -/
inductive Event where
  | press (mic : Option (List ℕ))
  | openAck
  | message (msg : ServerMessage) (now : ℚ)
  | errorEvt
  | closeEvt
  | captureFrame (samples : List ℚ)

/-- The `handleToggleConversation` handler plus the callback wiring, as one
step function over `ConvState`, emitting the resource actions of the step.

* `press` while active runs `cleanup` (a stop request); while connecting the
  button is disabled (`disabled={isConnecting}`) so the press is ignored;
  otherwise the start path runs: flags and transcripts are reset, then on
  microphone success the stream, both audio contexts and the transport
  connection are acquired, and on failure the error is surfaced and
  `cleanup` runs.
* `openAck` (the `onopen` callback of the pending connect) marks the session
  active and wires the script processor.
* `message` demuxes through `onmessage` for the live session.
* `errorEvt`/`onerror` surfaces an error and runs `cleanup`; `closeEvt`
  runs `cleanup`.
* `captureFrame` sends one encoded frame when the processor is wired and a
  session exists. -/
def step (st : ConvState) (e : Event) : ConvState × List Action :=
  match e with
  | .press mic =>
      if st.isActive then
        let (st', acts) := cleanup st
        ({ st' with statusMessage :=
            "Session ended. Press the microphone to start again." }, acts)
      else if st.isConnecting then
        (st, [])
      else
        let stStart := { st with
          isConnecting := true
          error := none
          transcripts := []
          statusMessage := "Connecting to Gemini and requesting microphone..." }
        match mic with
        | some tracks =>
            ({ stStart with
                mediaStream := some tracks
                inputAudioContext := some stStart.nextHandle
                outputAudioContext := some (stStart.nextHandle + 1)
                sessionHandle := some (stStart.nextHandle + 2)
                nextHandle := stStart.nextHandle + 3 },
             [Action.openTransport (stStart.nextHandle + 2)])
        | none =>
            let stErr := { stStart with
              error := some "Could not start the microphone. Please check permissions and try again." }
            let (st', acts) := cleanup stErr
            ({ st' with statusMessage := "Error. Press microphone to retry." },
             acts)
  | .openAck =>
      if st.isConnecting ∧ st.sessionHandle.isSome then
        ({ st with
            isConnecting := false
            isActive := true
            statusMessage := "Listening... Speak now."
            scriptProcessor := some st.nextHandle
            nextHandle := st.nextHandle + 1 }, [])
      else
        (st, [])
  | .message msg now =>
      if st.sessionHandle.isSome then
        onmessage st msg now
      else
        (st, [])
  | .errorEvt =>
      let stErr := { st with
        error := some "An error occurred during the session. Please try again." }
      let (st', acts) := cleanup stErr
      ({ st' with statusMessage := "Error. Press microphone to retry." }, acts)
  | .closeEvt =>
      let (st', acts) := cleanup st
      ({ st' with statusMessage :=
          "Session closed. Press microphone to start again." }, acts)
  | .captureFrame samples =>
      if st.scriptProcessor.isSome ∧ st.sessionHandle.isSome then
        (st, [Action.sendFrame (encodePCM samples)])
      else
        (st, [])

/-- Run a sequence of events from a state, accumulating the trace. -/
def run (st : ConvState) : List Event → ConvState × List Action
  | [] => (st, [])
  | e :: es =>
      let (st', acts) := step st e
      let (st'', acts') := run st' es
      (st'', acts ++ acts')

/-! ## Predicates and sample states used by the verification -/

/-- Recognizer for track-stop actions. -/
def Action.isStopTrack : Action → Bool
  | .stopTrack _ => true
  | _ => false

/-- Recognizer for processor-disconnect actions. -/
def Action.isDisconnect : Action → Bool
  | .disconnectProcessor _ => true
  | _ => false

/-- Recognizer for input-context-close actions. -/
def Action.isCloseInput : Action → Bool
  | .closeInputContext _ => true
  | _ => false

/-- Recognizer for output-context-close actions. -/
def Action.isCloseOutput : Action → Bool
  | .closeOutputContext _ => true
  | _ => false

/-- Recognizer for source-stop actions. -/
def Action.isStopSource : Action → Bool
  | .stopSource _ => true
  | _ => false

/-- Recognizer for session-close actions. -/
def Action.isCloseSession : Action → Bool
  | .closeSession _ => true
  | _ => false

/-- Recognizer for transport activity: opening the connection or sending a
frame on it. -/
def Action.isTransportUse : Action → Bool
  | .openTransport _ => true
  | .sendFrame _ => true
  | _ => false

/-- Events on which the code performs full teardown (`cleanup`): a press
while active (user stop), a press from rest whose microphone acquisition
fails, a transport error, and a transport close. -/
def isTeardownStep (st : ConvState) : Event → Bool
  | .press mic => st.isActive || (!st.isConnecting && mic.isNone)
  | .errorEvt => true
  | .closeEvt => true
  | _ => false

/-- Events that are an inbound interruption signal. -/
def isInterruptMsg : Event → Bool
  | .message msg _ => msg.interrupted
  | _ => false

/-- All resource handles are released and no playback source is in flight. -/
def handlesFree (st : ConvState) : Prop :=
  st.mediaStream = none ∧ st.inputAudioContext = none ∧
  st.outputAudioContext = none ∧ st.scriptProcessor = none ∧
  st.sessionHandle = none ∧ st.audioSources = []

/-- A state at rest (neither connecting nor active) holds no resources. -/
def idleFree (st : ConvState) : Prop :=
  st.isActive = false → st.isConnecting = false → handlesFree st

/-- A concrete mid-conversation state, used to witness the claims whose
theorems carry hypotheses. -/
def sampleActiveState : ConvState :=
  { initialState with
      isActive := true
      sessionHandle := some 2
      inputAudioContext := some 0
      outputAudioContext := some 1
      scriptProcessor := some 3
      mediaStream := some [7]
      audioSources := [4, 5]
      nextStartTime := 3 / 2
      nextHandle := 6 }

/-! ## Shared lemmas -/

/-- The count of elements of a mapped list all of which satisfy the
predicate. -/
theorem countP_comp_true {α β : Type _} {p : β → Bool} {f : α → β}
    (h : ∀ a, p (f a) = true) :
    ∀ l : List α, List.countP (p ∘ f) l = l.length := by
  intro l
  induction l with
  | nil => simp
  | cons a tl ih => simp [List.countP_cons, h, ih, Function.comp]

/-- The count of elements of a mapped list none of which satisfy the
predicate. -/
theorem countP_comp_false {α β : Type _} {p : β → Bool} {f : α → β}
    (h : ∀ a, p (f a) = false) :
    ∀ l : List α, List.countP (p ∘ f) l = 0 := by
  intro l
  induction l with
  | nil => simp
  | cons a tl ih => simp [List.countP_cons, h, ih, Function.comp]

/-- Replacing the last element of a nonempty list is dropping the last
element and appending the replacement. -/
theorem set_last_eq {α : Type _} : ∀ (l : List α) (x : α), l ≠ [] →
    l.set (l.length - 1) x = l.dropLast ++ [x] := by
  intro l
  induction l with
  | nil => intro x h; exact absurd rfl h
  | cons a tl ih =>
      intro x _
      cases tl with
      | nil => rfl
      | cons b tl2 =>
          have h2 := ih x (by simp)
          simpa [List.set, List.dropLast] using h2

/-- Every start time produced by `scheduleStarts` is at least the cursor the
scheduler started from; in particular the first one is. -/
theorem scheduleStarts_head_ge (chunks : List (ℚ × ℚ)) (cursor : ℚ) (p : ℚ × ℚ)
    (hp : p ∈ (scheduleStarts cursor chunks).head?) : cursor ≤ p.1 := by
  cases chunks with
  | nil => simp [scheduleStarts] at hp
  | cons c rest =>
      obtain ⟨now, dur⟩ := c
      simp [scheduleStarts, Option.mem_def] at hp
      subst hp
      exact le_max_left _ _

/-- Each scheduled start is at least the previous start plus the previous
duration, and (for nonnegative durations) the starts are non-decreasing. -/
theorem scheduleStarts_chain (chunks : List (ℚ × ℚ))
    (hdur : ∀ p ∈ chunks, 0 ≤ p.2) :
    ∀ cursor : ℚ,
      List.Chain' (fun a b => a.1 + a.2 ≤ b.1) (scheduleStarts cursor chunks) ∧
      List.Chain' (fun a b => a.1 ≤ b.1) (scheduleStarts cursor chunks) := by
  induction chunks with
  | nil => intro cursor; simp [scheduleStarts]
  | cons c rest ih =>
      intro cursor
      obtain ⟨now, dur⟩ := c
      have hdur0 : 0 ≤ dur := hdur (now, dur) (List.mem_cons_self _ _)
      have hrest := ih (fun p hp => hdur p (List.mem_cons_of_mem _ hp))
      rw [scheduleStarts]
      constructor
      · rw [List.chain'_cons']
        refine ⟨fun b hb => ?_, (hrest _).1⟩
        exact scheduleStarts_head_ge rest _ b hb
      · rw [List.chain'_cons']
        refine ⟨fun b hb => ?_, (hrest _).2⟩
        have h1 := scheduleStarts_head_ge rest _ b hb
        have h2 : enqueueStart cursor now ≤ enqueueStart cursor now + dur := by
          linarith
        exact le_trans h2 h1

/-! ## The claims -/

/-- C1: for every sequence of inbound audio chunks enqueued by the playback
scheduler with no interruption in between — each given as the pair of the
output-clock reading at its enqueue and its decoded duration — with
monotone non-decreasing clock readings and nonnegative durations, the
computed start times satisfy: each chunk's start time is at least the
previous chunk's start time plus the previous chunk's duration, and the
start times are non-decreasing.  No overlap and no negative gap is ever
scheduled. -/
theorem claim_C1_gapless_scheduling (cursor : ℚ) (chunks : List (ℚ × ℚ))
    (hdur : ∀ p ∈ chunks, 0 ≤ p.2)
    (_hmono : List.Chain' (fun a b => a.1 ≤ b.1) chunks) :
    List.Chain' (fun a b => a.1 + a.2 ≤ b.1) (scheduleStarts cursor chunks) ∧
    List.Chain' (fun a b => a.1 ≤ b.1) (scheduleStarts cursor chunks) :=
  scheduleStarts_chain chunks hdur cursor

/-- Witness for C1: two chunks of duration 1 whose clock readings are 0 and
2 (a gap in arrival) scheduled from cursor 0. -/
theorem claim_C1_witness :
    (∀ p ∈ [((0 : ℚ), (1 : ℚ)), (2, 1)], 0 ≤ p.2) ∧
    List.Chain' (fun a b => a.1 ≤ b.1) [((0 : ℚ), (1 : ℚ)), (2, 1)] ∧
    (List.Chain' (fun a b => a.1 + a.2 ≤ b.1)
        (scheduleStarts 0 [((0 : ℚ), (1 : ℚ)), (2, 1)]) ∧
     List.Chain' (fun a b => a.1 ≤ b.1)
        (scheduleStarts 0 [((0 : ℚ), (1 : ℚ)), (2, 1)])) := by
  have h1 : ∀ p ∈ [((0 : ℚ), (1 : ℚ)), (2, 1)], 0 ≤ p.2 := by norm_num
  have h2 : List.Chain' (fun a b : ℚ × ℚ => a.1 ≤ b.1)
      [((0 : ℚ), (1 : ℚ)), (2, 1)] := by norm_num
  exact ⟨h1, h2, claim_C1_gapless_scheduling 0 _ h1 h2⟩

/-- C3: appending a fragment to the transcript merges into the last entry
(concatenating the text and overwriting the final flag) exactly when that
entry exists, has the same speaker and is not final — adding no entry and
keeping the length — and otherwise appends a new entry at the end; in every
case the entries before the last position are preserved unchanged (no
deletion, no reordering). -/
theorem claim_C3_transcript_append (prev : List TranscriptEntry) (sp : Speaker)
    (t : String) (f : Bool) :
    (∀ last, prev.getLast? = some last → last.speaker = sp →
        last.isFinal = false →
        appendTranscript prev sp t f = prev.dropLast ++ [⟨sp, last.text ++ t, f⟩] ∧
        (appendTranscript prev sp t f).length = prev.length) ∧
    ((∀ last, prev.getLast? = some last → last.speaker = sp →
        last.isFinal = false → False) →
        appendTranscript prev sp t f = prev ++ [⟨sp, t, f⟩]) ∧
    (appendTranscript prev sp t f).take (prev.length - 1)
      = prev.take (prev.length - 1) := by
  cases hl : prev.getLast? with
  | none =>
      have hnil : prev = [] := List.getLast?_eq_none_iff.mp hl
      subst hnil
      exact ⟨by simp, fun _ => by simp [appendTranscript], by simp [appendTranscript]⟩
  | some last =>
      have hne : prev ≠ [] := by intro h; subst h; simp at hl
      have hlen1 : 1 ≤ prev.length := by
        cases prev
        · exact absurd rfl hne
        · simp
      by_cases hcond : last.speaker = sp ∧ last.isFinal = false
      · have happ : appendTranscript prev sp t f
            = prev.dropLast ++ [⟨sp, last.text ++ t, f⟩] := by
          rw [appendTranscript, hl]
          simp only [hcond, if_pos]
          rw [set_last_eq prev _ hne]
          simp [hcond.1]
        refine ⟨?_, ?_, ?_⟩
        · intro last' hl' _ _
          injection hl' with h
          subst h
          refine ⟨happ, ?_⟩
          rw [happ]
          simp [List.length_dropLast]
          omega
        · intro hfalse
          exact absurd (hfalse last rfl hcond.1 hcond.2) not_false
        · rw [happ]
          have hdl : prev.dropLast.length = prev.length - 1 :=
            List.length_dropLast prev
          rw [← hdl, List.take_left, hdl, ← List.dropLast_eq_take]
      · have happ : appendTranscript prev sp t f = prev ++ [⟨sp, t, f⟩] := by
          rw [appendTranscript, hl]
          simp only [if_neg hcond]
        refine ⟨?_, fun _ => happ, ?_⟩
        · intro last' hl' h1 h2
          injection hl' with h
          subst h
          exact absurd ⟨h1, h2⟩ hcond
        · rw [happ, List.take_append_of_le_length (by omega)]

/-- Witness for C3: two non-final fragments from the same speaker merge into
one entry with concatenated text. -/
theorem claim_C3_witness :
    appendTranscript [⟨Speaker.user, "Hel", false⟩] Speaker.user "lo" false
      = [⟨Speaker.user, "Hello", false⟩] := by
  have h := (claim_C3_transcript_append [⟨Speaker.user, "Hel", false⟩]
      Speaker.user "lo" false).1 ⟨Speaker.user, "Hel", false⟩ rfl rfl rfl
  simpa using h.1

/-- C2: teardown is idempotent and total.  The second of two successive
`cleanup` calls, from any state, observes already-nulled handles, emits no
release action (so no error), and leaves the state exactly as after the
first call; the first call clears both lifecycle flags, nulls every handle,
clears the in-flight set, zeroes the cursor, and releases each held
resource exactly once (one stop per track, one disconnect, one close per
context, one stop per in-flight source, one session close). -/
theorem claim_C2_cleanup_idempotent (st : ConvState) :
    (cleanup (cleanup st).1).1 = (cleanup st).1 ∧
    (cleanup (cleanup st).1).2 = [] ∧
    ((cleanup st).1.isConnecting = false ∧ (cleanup st).1.isActive = false ∧
     (cleanup st).1.mediaStream = none ∧ (cleanup st).1.scriptProcessor = none ∧
     (cleanup st).1.inputAudioContext = none ∧
     (cleanup st).1.outputAudioContext = none ∧
     (cleanup st).1.audioSources = [] ∧ (cleanup st).1.nextStartTime = 0 ∧
     (cleanup st).1.sessionHandle = none) ∧
    ((cleanup st).2.countP Action.isStopTrack = (st.mediaStream.getD []).length ∧
     (cleanup st).2.countP Action.isDisconnect
        = (if st.scriptProcessor.isSome then 1 else 0) ∧
     (cleanup st).2.countP Action.isCloseInput
        = (if st.inputAudioContext.isSome then 1 else 0) ∧
     (cleanup st).2.countP Action.isCloseOutput
        = (if st.outputAudioContext.isSome then 1 else 0) ∧
     (cleanup st).2.countP Action.isStopSource = st.audioSources.length ∧
     (cleanup st).2.countP Action.isCloseSession
        = (if st.sessionHandle.isSome then 1 else 0)) := by
  obtain ⟨c1, c2, sm, tr, er, sh, iac, oac, sp, ms, srcs, nst, nh⟩ := st
  cases sh <;> cases iac <;> cases oac <;> cases sp <;> cases ms <;>
    simp [cleanup, List.countP_append, List.countP_map, Function.comp,
      Action.isStopTrack, Action.isDisconnect, Action.isCloseInput,
      Action.isCloseOutput, Action.isStopSource, Action.isCloseSession,
      List.countP_true, List.countP_eq_zero, List.countP_cons,
      countP_comp_true, countP_comp_false]

/-- C4: an inbound interruption signal stops every in-flight source, clears
the in-flight set and resets the timeline cursor to zero, so a chunk
enqueued afterwards starts at the current (nonnegative) output-clock
reading, not at the pre-interruption timeline position. -/
theorem claim_C4_interrupt_resets (st : ConvState) (msg : ServerMessage)
    (now now' : ℚ) (hsess : st.sessionHandle.isSome = true)
    (hin : msg.inputTranscription = none) (hout : msg.outputTranscription = none)
    (haud : msg.audioData = none) (hint : msg.interrupted = true)
    (hnow : 0 ≤ now') :
    (step st (.message msg now)).1.audioSources = [] ∧
    (step st (.message msg now)).1.nextStartTime = 0 ∧
    (step st (.message msg now)).2 = st.audioSources.map Action.stopSource ∧
    enqueueStart (step st (.message msg now)).1.nextStartTime now' = now' := by
  simp [step, onmessage, applyInterrupted, hsess, hin, hout, haud, hint,
    enqueueStart, max_eq_right hnow]

/-- Witness for C4 at a concrete mid-conversation state with two in-flight
sources, cursor 3/2, and a later enqueue at clock reading 2. -/
theorem claim_C4_witness :
    sampleActiveState.sessionHandle.isSome = true ∧
    (0 : ℚ) ≤ 2 ∧
    ((step sampleActiveState (.message ⟨none, none, none, true⟩ 1)).1.audioSources
        = [] ∧
     (step sampleActiveState (.message ⟨none, none, none, true⟩ 1)).1.nextStartTime
        = 0 ∧
     (step sampleActiveState (.message ⟨none, none, none, true⟩ 1)).2
        = sampleActiveState.audioSources.map Action.stopSource ∧
     enqueueStart
        (step sampleActiveState (.message ⟨none, none, none, true⟩ 1)).1.nextStartTime
        2 = 2) :=
  ⟨rfl, by norm_num,
    claim_C4_interrupt_resets sampleActiveState ⟨none, none, none, true⟩ 1 2
      rfl rfl rfl rfl rfl (by norm_num)⟩

/-- C10: a message carrying only the interrupted flag changes only the
in-flight source set and the timeline cursor; the transcript, the lifecycle
flags (the session remains active) and every resource handle are
unchanged. -/
theorem claim_C10_interrupted_only_frame (st : ConvState) (msg : ServerMessage)
    (now : ℚ) (hsess : st.sessionHandle.isSome = true)
    (hin : msg.inputTranscription = none) (hout : msg.outputTranscription = none)
    (haud : msg.audioData = none) (hint : msg.interrupted = true) :
    (step st (.message msg now)).1
      = { st with audioSources := [], nextStartTime := 0 } ∧
    (step st (.message msg now)).1.transcripts = st.transcripts ∧
    (step st (.message msg now)).1.isActive = st.isActive ∧
    (step st (.message msg now)).1.isConnecting = st.isConnecting ∧
    (step st (.message msg now)).1.mediaStream = st.mediaStream ∧
    (step st (.message msg now)).1.scriptProcessor = st.scriptProcessor ∧
    (step st (.message msg now)).1.inputAudioContext = st.inputAudioContext ∧
    (step st (.message msg now)).1.outputAudioContext = st.outputAudioContext ∧
    (step st (.message msg now)).1.sessionHandle = st.sessionHandle ∧
    (step st (.message msg now)).1.error = st.error := by
  simp [step, onmessage, applyInterrupted, hsess, hin, hout, haud, hint]

/-- Witness for C10 at a concrete active state. -/
theorem claim_C10_witness :
    sampleActiveState.sessionHandle.isSome = true ∧
    (step sampleActiveState (.message ⟨none, none, none, true⟩ 1)).1
      = { sampleActiveState with audioSources := [], nextStartTime := 0 } ∧
    (step sampleActiveState (.message ⟨none, none, none, true⟩ 1)).1.isActive
      = true :=
  ⟨rfl,
   (claim_C10_interrupted_only_frame sampleActiveState ⟨none, none, none, true⟩ 1
      rfl rfl rfl rfl rfl).1,
   ((claim_C10_interrupted_only_frame sampleActiveState ⟨none, none, none, true⟩ 1
      rfl rfl rfl rfl rfl).2.2.1).trans rfl⟩

/-- Counterexample for C5.  The claim says each captured sample in
`[-1, 1]` becomes `round(sample * 32768)` with clamping so that 32768 is
never produced.  The code stores `sample * 32768` into an `Int16Array`,
which truncates toward zero and wraps modulo 2^16: at sample `1` the code
produces `-32768` where the claim requires the clamped `32767`, and at
sample `3/5` it produces the truncated `19660` where rounding gives
`19661`. -/
theorem claim_C5_counterexample :
    encodeSample 1 = -32768 ∧ specEncodeSample 1 = 32767 ∧
    encodeSample 1 ≠ specEncodeSample 1 ∧
    encodeSample (3 / 5) = 19660 ∧ round ((3 / 5 : ℚ) * 32768) = 19661 := by
  norm_num [encodeSample, specEncodeSample, toInt16, truncQ, round_eq]

/-- C5 as amended: the capture path converts every sample in `[-1, 1]` to a
16-bit signed integer by truncating `sample * 32768` toward zero and
wrapping modulo 2^16 (no rounding and no clamping: the boundary value
maps `1` to `-32768`); the result always lies in `[-32768, 32767]` before
being packed as contiguous little-endian bytes. -/
theorem claim_C5_amended_wraparound (s : ℚ) (h1 : -1 ≤ s) (h2 : s ≤ 1) :
    encodeSample s
      = (if truncQ (s * 32768) = 32768 then -32768 else truncQ (s * 32768)) ∧
    -32768 ≤ encodeSample s ∧ encodeSample s ≤ 32767 := by
  have hb1 : (-32768 : ℚ) ≤ s * 32768 := by nlinarith
  have hb2 : s * 32768 ≤ 32768 := by nlinarith
  have ht : (-32768 : ℤ) ≤ truncQ (s * 32768) ∧ truncQ (s * 32768) ≤ 32768 := by
    unfold truncQ
    split
    · constructor
      · have h := Int.floor_nonneg.mpr (show (0:ℚ) ≤ s * 32768 by assumption)
        omega
      · have h : ⌊s * 32768⌋ ≤ ⌊(32768 : ℚ)⌋ := Int.floor_le_floor hb2
        simpa using h
    · constructor
      · have h : ⌈(-32768 : ℚ)⌉ ≤ ⌈s * 32768⌉ := Int.ceil_le_ceil hb1
        simpa using h
      · have h : ⌈s * 32768⌉ ≤ (0 : ℤ) := Int.ceil_le.mpr (by push_cast; linarith)
        omega
  have key : ∀ t : ℤ, -32768 ≤ t → t ≤ 32768 →
      (if 32768 ≤ t % 65536 then t % 65536 - 65536 else t % 65536)
        = (if t = 32768 then -32768 else t) ∧
      -32768 ≤ (if 32768 ≤ t % 65536 then t % 65536 - 65536 else t % 65536) ∧
      (if 32768 ≤ t % 65536 then t % 65536 - 65536 else t % 65536) ≤ 32767 := by
    intro t ha hb
    split_ifs <;> omega
  have hk := key (truncQ (s * 32768)) ht.1 ht.2
  simpa [encodeSample, toInt16] using hk

/-- Witness for the amended C5 at the boundary sample 1. -/
theorem claim_C5_witness :
    (-1 : ℚ) ≤ 1 ∧ (1 : ℚ) ≤ 1 ∧
    (encodeSample 1
        = (if truncQ ((1 : ℚ) * 32768) = 32768 then -32768
           else truncQ ((1 : ℚ) * 32768)) ∧
     -32768 ≤ encodeSample 1 ∧ encodeSample 1 ≤ 32767) :=
  ⟨by norm_num, le_refl 1,
    claim_C5_amended_wraparound 1 (by norm_num) (le_refl 1)⟩

/-- A successfully decoded buffer has nonnegative duration. -/
theorem decodeAudioData_duration_nonneg {bytes : List ℕ} {r : ℕ}
    {buf : AudioBuffer} (h : decodeAudioData bytes r = .ok buf) :
    0 ≤ buf.duration := by
  unfold decodeAudioData at h
  split at h
  · injection h with h'
    subst h'
    simp only
    positivity
  · cases h

/-- Handling any message that is not an interruption signal never decreases
the timeline cursor. -/
theorem onmessage_cursor_mono (st : ConvState) (msg : ServerMessage) (now : ℚ)
    (hint : msg.interrupted = false) :
    st.nextStartTime ≤ (onmessage st msg now).1.nextStartTime := by
  rcases msg with ⟨it, ot, ad, intr⟩
  simp only at hint
  subst hint
  unfold onmessage
  cases ad with
  | none => cases it <;> cases ot <;> simp [applyInterrupted]
  | some payload =>
      rcases hdec : decodeAudioData payload 24000 with e | buf
      · cases it <;> cases ot <;>
          simp [applyInterrupted, hdec, enqueueStart] <;>
          split <;> simp [le_max_left]
      · have hd := decodeAudioData_duration_nonneg hdec
        have hle : st.nextStartTime ≤ max st.nextStartTime now + buf.duration := by
          have := le_max_left st.nextStartTime now
          linarith
        cases it <;> cases ot <;>
          simp [applyInterrupted, hdec, enqueueStart] <;>
          split <;> simp [hle, le_max_left]

/-- Counterexample for C6.  The claim allows only the interruption reset as
an exception to cursor monotonicity, but teardown also zeroes the cursor:
from a state with cursor 1, the transport-close event — which is not an
interruption signal — runs `cleanup` and drops the cursor to 0. -/
theorem claim_C6_counterexample :
    isInterruptMsg Event.closeEvt = false ∧
    (step { initialState with nextStartTime := 1 } Event.closeEvt).1.nextStartTime
      < ({ initialState with nextStartTime := 1 } : ConvState).nextStartTime := by
  refine ⟨rfl, ?_⟩
  norm_num [step, cleanup, initialState]

/-- C6 as amended: across every operation of a session, the output timeline
cursor never decreases except when it is reset to zero by an inbound
interruption signal or by teardown (`cleanup`, reached from user stop,
microphone-failure abort, transport error, or transport close). -/
theorem claim_C6_amended_cursor_monotone (st : ConvState) (e : Event)
    (hteardown : isTeardownStep st e = false)
    (hint : isInterruptMsg e = false) :
    st.nextStartTime ≤ (step st e).1.nextStartTime := by
  cases e with
  | press mic =>
      by_cases hact : st.isActive
      · simp [isTeardownStep, hact] at hteardown
      · by_cases hconn : st.isConnecting
        · simp [step, hact, hconn]
        · cases mic with
          | none => simp [isTeardownStep, hact, hconn] at hteardown
          | some tracks => simp [step, hact, hconn]
  | openAck =>
      by_cases h : st.isConnecting ∧ st.sessionHandle.isSome <;> simp [step, h]
  | message msg now =>
      simp only [isInterruptMsg] at hint
      by_cases hs : st.sessionHandle.isSome
      · simpa [step, hs] using onmessage_cursor_mono st msg now hint
      · simp [step, hs]
  | errorEvt => simp [isTeardownStep] at hteardown
  | closeEvt => simp [isTeardownStep] at hteardown
  | captureFrame samples =>
      by_cases h : st.scriptProcessor.isSome ∧ st.sessionHandle.isSome <;>
        simp [step, h]

/-- Witness for the amended C6: the open acknowledgment is neither a
teardown nor an interruption, and it leaves the cursor unchanged. -/
theorem claim_C6_witness :
    isTeardownStep sampleActiveState Event.openAck = false ∧
    isInterruptMsg Event.openAck = false ∧
    sampleActiveState.nextStartTime
      ≤ (step sampleActiveState Event.openAck).1.nextStartTime :=
  ⟨rfl, rfl,
    claim_C6_amended_cursor_monotone sampleActiveState Event.openAck rfl rfl⟩

/-- C7: a decode error on one inbound audio chunk drops the offending chunk
and does not terminate the session: the handler leaves the state unchanged
apart from the status text and the harmless cursor clamp
`max(cursor, now)` that precedes the decode; the lifecycle flags, the
session handle and the in-flight set are untouched, no action is emitted,
and — because the clamp is absorbed by the next enqueue at any later clock
reading — subsequent valid chunks are scheduled exactly as if the bad chunk
had never arrived, in arrival order. -/
theorem claim_C7_decode_error_dropped (st : ConvState) (msg : ServerMessage)
    (now : ℚ) (payload : List ℕ)
    (hsess : st.sessionHandle.isSome = true)
    (hin : msg.inputTranscription = none) (hout : msg.outputTranscription = none)
    (haud : msg.audioData = some payload) (hp : payload ≠ [])
    (hctx : st.outputAudioContext.isSome = true)
    (hbad : decodeAudioData payload 24000 = .error .badLength) :
    (step st (.message msg now)).1
      = { st with statusMessage := "AI is speaking...",
                  nextStartTime := enqueueStart st.nextStartTime now } ∧
    (step st (.message msg now)).1.isActive = st.isActive ∧
    (step st (.message msg now)).1.sessionHandle = st.sessionHandle ∧
    (step st (.message msg now)).1.audioSources = st.audioSources ∧
    (step st (.message msg now)).2 = [] ∧
    (∀ now', now ≤ now' →
        enqueueStart (step st (.message msg now)).1.nextStartTime now'
          = enqueueStart st.nextStartTime now') := by
  have hstep : step st (.message msg now)
      = ({ st with statusMessage := "AI is speaking...",
                   nextStartTime := enqueueStart st.nextStartTime now }, []) := by
    simp [step, onmessage, hsess, hin, hout, haud, hp, hctx, hbad]
  refine ⟨by rw [hstep], by rw [hstep], by rw [hstep], by rw [hstep],
    by rw [hstep], ?_⟩
  intro now' hnow
  rw [hstep]
  simp only [enqueueStart]
  rw [max_assoc, max_eq_right hnow]

/-- Witness for C7: the single-byte payload `[0]` fails the sample-width
check and is dropped at a concrete active state. -/
theorem claim_C7_witness :
    sampleActiveState.sessionHandle.isSome = true ∧
    ([(0 : ℕ)] ≠ ([] : List ℕ)) ∧
    sampleActiveState.outputAudioContext.isSome = true ∧
    decodeAudioData [0] 24000 = .error .badLength ∧
    ((step sampleActiveState (.message ⟨none, none, some [0], false⟩ 1)).1
        = { sampleActiveState with
              statusMessage := "AI is speaking...",
              nextStartTime := enqueueStart sampleActiveState.nextStartTime 1 } ∧
     (step sampleActiveState (.message ⟨none, none, some [0], false⟩ 1)).1.isActive
        = sampleActiveState.isActive ∧
     (step sampleActiveState (.message ⟨none, none, some [0], false⟩ 1)).1.sessionHandle
        = sampleActiveState.sessionHandle ∧
     (step sampleActiveState (.message ⟨none, none, some [0], false⟩ 1)).1.audioSources
        = sampleActiveState.audioSources ∧
     (step sampleActiveState (.message ⟨none, none, some [0], false⟩ 1)).2 = [] ∧
     (∀ now', (1 : ℚ) ≤ now' →
        enqueueStart
          (step sampleActiveState (.message ⟨none, none, some [0], false⟩ 1)).1.nextStartTime
          now' = enqueueStart sampleActiveState.nextStartTime now')) :=
  ⟨rfl, by simp, rfl, rfl,
    claim_C7_decode_error_dropped sampleActiveState ⟨none, none, some [0], false⟩
      1 [0] rfl rfl rfl rfl (by simp) rfl rfl⟩

/-- No `cleanup` ever opens the transport or sends a frame: its trace is
only releases. -/
theorem cleanup_no_transport_use (st : ConvState) :
    (cleanup st).2.countP Action.isTransportUse = 0 := by
  obtain ⟨c1, c2, sm, tr, er, sh, iac, oac, sp, ms, srcs, nst, nh⟩ := st
  cases sh <;> cases iac <;> cases oac <;> cases sp <;> cases ms <;>
    simp [cleanup, List.countP_append, List.countP_map, List.countP_cons,
      countP_comp_false, Action.isTransportUse]

/-- C8: if microphone acquisition fails during a start request from rest,
the attempt aborts before any transport activity: the step's trace contains
no transport open and no frame send, the session returns to the idle state
(both flags false) with an error surfaced, no session or processor handle
remains, and a subsequent capture callback sends nothing. -/
theorem claim_C8_mic_failure_aborts (st : ConvState)
    (hact : st.isActive = false) (hconn : st.isConnecting = false) :
    (step st (.press none)).2.countP Action.isTransportUse = 0 ∧
    (step st (.press none)).1.isActive = false ∧
    (step st (.press none)).1.isConnecting = false ∧
    (step st (.press none)).1.error.isSome = true ∧
    (step st (.press none)).1.sessionHandle = none ∧
    (step st (.press none)).1.scriptProcessor = none ∧
    (step st (.press none)).1.mediaStream = none ∧
    (∀ samples, (step (step st (.press none)).1 (.captureFrame samples)).2 = []) := by
  have hstep : step st (.press none)
      = ({ (cleanup { st with
              isConnecting := true,
              transcripts := [],
              statusMessage := "Connecting to Gemini and requesting microphone...",
              error := some "Could not start the microphone. Please check permissions and try again." }).1
            with statusMessage := "Error. Press microphone to retry." },
         (cleanup { st with
              isConnecting := true,
              transcripts := [],
              statusMessage := "Connecting to Gemini and requesting microphone...",
              error := some "Could not start the microphone. Please check permissions and try again." }).2) := by
    simp [step, hact, hconn]
  rw [hstep]
  refine ⟨cleanup_no_transport_use _, ?_, ?_, ?_, ?_, ?_, ?_, ?_⟩ <;>
    simp [step, cleanup]

/-- Witness for C8 from the initial (idle) state. -/
theorem claim_C8_witness :
    initialState.isActive = false ∧ initialState.isConnecting = false ∧
    ((step initialState (.press none)).2.countP Action.isTransportUse = 0 ∧
     (step initialState (.press none)).1.isActive = false ∧
     (step initialState (.press none)).1.isConnecting = false ∧
     (step initialState (.press none)).1.error.isSome = true ∧
     (step initialState (.press none)).1.sessionHandle = none ∧
     (step initialState (.press none)).1.scriptProcessor = none ∧
     (step initialState (.press none)).1.mediaStream = none ∧
     (∀ samples,
        (step (step initialState (.press none)).1 (.captureFrame samples)).2
          = [])) :=
  ⟨rfl, rfl, claim_C8_mic_failure_aborts initialState rfl rfl⟩

/-- After `cleanup` every resource handle is released. -/
theorem cleanup_handlesFree (st : ConvState) : handlesFree (cleanup st).1 := by
  simp [cleanup, handlesFree]

/-- Message handling never changes the lifecycle flags. -/
theorem onmessage_flags (st : ConvState) (msg : ServerMessage) (now : ℚ) :
    (onmessage st msg now).1.isActive = st.isActive ∧
    (onmessage st msg now).1.isConnecting = st.isConnecting := by
  rcases msg with ⟨it, ot, ad, intr⟩
  unfold onmessage
  cases ad with
  | none => cases it <;> cases ot <;> cases intr <;> simp [applyInterrupted]
  | some payload =>
      rcases hdec : decodeAudioData payload 24000 with e | buf <;>
        cases it <;> cases ot <;> cases intr <;>
        simp [applyInterrupted, hdec] <;> split <;> simp

/-- Every step preserves the invariant that a state at rest holds no
resources. -/
theorem step_idleFree (st : ConvState) (e : Event) (h : idleFree st) :
    idleFree (step st e).1 := by
  cases e with
  | press mic =>
      by_cases hact : st.isActive
      · intro _ _
        simp only [step, hact, if_pos]
        simp [cleanup, handlesFree]
      · by_cases hconn : st.isConnecting
        · simpa [step, hact, hconn] using h
        · cases mic with
          | some tracks =>
              intro _ hc
              simp [step, hact, hconn] at hc
          | none =>
              intro _ _
              simp only [step, hact, hconn]
              simp [cleanup, handlesFree]
  | openAck =>
      by_cases hcond : st.isConnecting ∧ st.sessionHandle.isSome
      · intro ha _
        simp [step, hcond] at ha
      · simpa [step, hcond] using h
  | message msg now =>
      by_cases hs : st.sessionHandle.isSome
      · intro ha hc
        simp only [step, hs, and_true, if_pos] at ha hc ⊢
        rw [(onmessage_flags st msg now).1] at ha
        rw [(onmessage_flags st msg now).2] at hc
        have hfree := h ha hc
        rw [hfree.2.2.2.2.1] at hs
        simp at hs
      · simpa [step, hs] using h
  | errorEvt =>
      intro _ _
      simp only [step]
      simp [cleanup, handlesFree]
  | closeEvt =>
      intro _ _
      simp only [step]
      simp [cleanup, handlesFree]
  | captureFrame samples =>
      by_cases hc : st.scriptProcessor.isSome ∧ st.sessionHandle.isSome <;>
        simpa [step, hc] using h

/-- The rest-holds-nothing invariant holds along every run. -/
theorem run_preserves_idleFree :
    ∀ (es : List Event) (st : ConvState), idleFree st → idleFree (run st es).1 := by
  intro es
  induction es with
  | nil => intro st h; simpa [run] using h
  | cons e tl ih =>
      intro st h
      simp only [run]
      exact ih _ (step_idleFree st e h)

/-- C9: no two sessions ever hold the capture or output device
concurrently.  In every state reachable from the initial one, being at rest
implies all handles are free (so a start can only acquire from a fully
released state); a press while connecting is ignored (the button is
disabled); and a press while active performs teardown only — it emits no
transport activity, releases every handle and does not reach an active
state. -/
theorem claim_C9_no_concurrent_sessions (events : List Event) (st : ConvState)
    (mic : Option (List ℕ)) :
    idleFree (run initialState events).1 ∧
    (st.isConnecting = true → st.isActive = false →
        step st (.press mic) = (st, [])) ∧
    (st.isActive = true →
        (step st (.press mic)).2.countP Action.isTransportUse = 0 ∧
        handlesFree (step st (.press mic)).1 ∧
        (step st (.press mic)).1.isActive = false ∧
        (step st (.press mic)).1.isConnecting = false) := by
  refine ⟨run_preserves_idleFree events initialState (fun _ _ => by
      simp [initialState, handlesFree]), ?_, ?_⟩
  · intro hconn hact
    simp [step, hact, hconn]
  · intro hact
    have hstep : step st (.press mic)
        = ({ (cleanup st).1 with statusMessage :=
              "Session ended. Press the microphone to start again." },
           (cleanup st).2) := by
      simp [step, hact]
    rw [hstep]
    exact ⟨cleanup_no_transport_use st, by simp [cleanup, handlesFree],
      by simp [cleanup], by simp [cleanup]⟩

/-- Witness for C9: the empty run satisfies the invariant, and a press at a
concrete active state tears the session down without transport use. -/
theorem claim_C9_witness :
    idleFree (run initialState []).1 ∧
    sampleActiveState.isActive = true ∧
    ((step sampleActiveState (.press none)).2.countP Action.isTransportUse = 0 ∧
     handlesFree (step sampleActiveState (.press none)).1 ∧
     (step sampleActiveState (.press none)).1.isActive = false ∧
     (step sampleActiveState (.press none)).1.isConnecting = false) :=
  ⟨(claim_C9_no_concurrent_sessions [] sampleActiveState none).1, rfl,
   (claim_C9_no_concurrent_sessions [] sampleActiveState none).2.2 rfl⟩

end AudioSession
